import Mathlib

/-!
Verification of the Artifactory-to-JFrog pipeline migration core
(`migrate_artifactory_to_jfrog.py`).

The script's core is pure text transformation, embedded here over
`List Char`:

* `decode_html_entities` — five sequential `str.replace` passes
  (`replacePy` models Python's `str.replace` for a non-empty pattern:
  leftmost non-overlapping occurrences, scanning resumes after each
  replacement).
* `extract_server_id` / `extract_upload_spec` — Python `re.search` with
  the script's three concrete regexes.  Each regex is a literal part,
  optional whitespace, and a single greedy one-or-more capture that must
  be followed by a closing quote; for these shapes a greedy
  non-backtracking matcher is equivalent to the regex engine (the chars
  admitted by each starred/plus class are disjoint from the literal that
  must follow, so no shorter match can succeed where the greedy one
  fails), which is what `matchServerAt` / `matchKeyAt` implement, and
  `reSearch` supplies `re.search`'s leftmost-position semantics.
* `convert_pipeline` — flag-gated assembly of fixed templates.  The
  `print` diagnostics of the script are I/O and are not part of the
  produced text; `has_setup` is computed (mirroring line 59) but feeds
  only that diagnostic, never the output.

Template strings are transcribed byte-for-byte from the source, with
literal braces written as the escapes `\x7b` / `\x7d`.
-/

namespace Migrate

/-- Worker for `replacePy`, structurally recursive on a fuel that
`replacePy` instantiates with the input's length (each step consumes at
least one input character, so that fuel never runs out; see
`replacePy_cons`). -/
def replacePyGo (p r : List Char) : Nat → List Char → List Char
  | 0, s => s
  | fuel + 1, s =>
    match s with
    | [] => []
    | c :: cs =>
      if p ≠ [] ∧ p.isPrefixOf (c :: cs) then
        r ++ replacePyGo p r fuel ((c :: cs).drop p.length)
      else
        c :: replacePyGo p r fuel cs

/-- Python `content.replace(p, r)` on character lists, for the non-empty
patterns the script uses: replace leftmost occurrences of `p` by `r`,
resuming the scan after the replaced segment.  (For `p = []` this is the
identity; the script only ever passes non-empty literals.)  The recurrence
it satisfies is `replacePy_nil` / `replacePy_cons` below. -/
def replacePy (p r s : List Char) : List Char := replacePyGo p r s.length s

/-- Lines 20–27: decode the five HTML entities, `&amp;` last. -/
def decode_html_entities (content : List Char) : List Char :=
  let c1 := replacePy "&apos;".toList "'".toList content
  let c2 := replacePy "&quot;".toList "\"".toList c1
  let c3 := replacePy "&gt;".toList ">".toList c2
  let c4 := replacePy "&lt;".toList "<".toList c3
  replacePy "&amp;".toList "&".toList c4

/-- Python's substring test `needle in hay` on character lists. -/
def pyContains (needle : List Char) : List Char → Bool
  | [] => needle.isEmpty
  | c :: cs => needle.isPrefixOf (c :: cs) || pyContains needle cs

/-- Python `\s` on the ASCII range. -/
def isPySpace (c : Char) : Bool :=
  c == ' ' || c == '\t' || c == '\n' || c == '\r' || c == '\x0b' || c == '\x0c'

/-- The character class `['\"]` of the server-id regex. -/
def isQuoteCh (c : Char) : Bool := c == '\'' || c == '"'

/-- Match a literal at the front of `s`; on success return the rest. -/
def stripLit : List Char → List Char → Option (List Char)
  | [], s => some s
  | _ :: _, [] => none
  | c :: cs, d :: ds => if c == d then stripLit cs ds else none

/-- Line 32: match `Artifactory\.server\s*\(\s*['\"]([^'\"]+)['\"]` at the
start of `s`, returning the capture.  The capture is the maximal run of
non-quote characters after the opening quote; it must be non-empty (`+`)
and be followed by a quote (the head of the `dropWhile` remainder is a
quote whenever it is non-empty). -/
def matchServerAt (s : List Char) : Option (List Char) :=
  match stripLit "Artifactory.server".toList s with
  | none => none
  | some s1 =>
    match s1.dropWhile isPySpace with
    | [] => none
    | c :: s2 =>
      if c == '(' then
        match s2.dropWhile isPySpace with
        | [] => none
        | d :: s3 =>
          if isQuoteCh d then
            match s3.takeWhile (fun e => !isQuoteCh e),
                s3.dropWhile (fun e => !isQuoteCh e) with
            | c0 :: cap, _ :: _ => some (c0 :: cap)
            | _, _ => none
          else none
      else none

/-- Python `re.search`: try the position matcher `f` at every position,
left to right, returning the first success. -/
def reSearch (f : List Char → Option (List Char)) : List Char → Option (List Char)
  | [] => f []
  | c :: cs =>
    match f (c :: cs) with
    | some r => some r
    | none => reSearch f cs

/-- Lines 30–33: first match of the server-id regex, else the fallback. -/
def extract_server_id (content : List Char) : List Char :=
  match reSearch matchServerAt content with
  | some sid => sid
  | none => "ecosysjfrog".toList

/-- Lines 38–39: match `"key"\s*:\s*"([^"]+)"` at the start of `s`. -/
def matchKeyAt (key : List Char) (s : List Char) : Option (List Char) :=
  match stripLit ('"' :: key ++ ['"']) s with
  | none => none
  | some s1 =>
    match s1.dropWhile isPySpace with
    | [] => none
    | c :: s2 =>
      if c == ':' then
        match s2.dropWhile isPySpace with
        | [] => none
        | d :: s3 =>
          if d == '"' then
            match s3.takeWhile (fun e => !(e == '"')),
                s3.dropWhile (fun e => !(e == '"')) with
            | c0 :: cap, _ :: _ => some (c0 :: cap)
            | _, _ => none
          else none
      else none

/-- Lines 36–44: first matches of the `pattern` and `target` regexes,
with the two independent fallbacks. -/
def extract_upload_spec (content : List Char) : List Char × List Char :=
  let pat :=
    match reSearch (matchKeyAt "pattern".toList) content with
    | some p => p
    | none => "*.txt".toList
  let tgt :=
    match reSearch (matchKeyAt "target".toList) content with
    | some t => t
    | none => "repo/".toList
  (pat, tgt)

/-- Line 59. -/
def has_setup (content : List Char) : Bool :=
  pyContains "stage('Setup Artifactory')".toList content

/-- Line 60. -/
def has_ping (content : List Char) : Bool :=
  pyContains "stage('Ping Artifactory')".toList content

/-- Line 61. -/
def has_upload (content : List Char) : Bool :=
  pyContains "server.upload".toList content

/-- Line 62. -/
def has_publish (content : List Char) : Bool :=
  pyContains "publishBuildInfo".toList content

/-- The names of the four stage templates the script can emit, plus
`setup`, which the script detects (line 59) but never emits. -/
inductive StageName where
  | configure
  | ping
  | upload
  | publish
  | setup
deriving DecidableEq

/-- Lines 70–79: the always-emitted configure-server block. -/
def configStage (server_id server_url server_user : List Char) : List Char :=
  "        stage('Configure JFrog Server') \x7b\n            steps \x7b\n                script \x7b\n                    echo '=== Configuring JFrog Server ==='\n                    jf 'config add ".toList
    ++ server_id
    ++ " --url=".toList ++ server_url
    ++ " --user=".toList ++ server_user
    ++ " --password=YOUR_PASSWORD --interactive=false'\n                    jf 'c use ".toList
    ++ server_id
    ++ "'\n                    echo '✅ Server configured'\n                \x7d\n            \x7d\n        \x7d".toList

/-- Lines 83–92: the ping block (fixed text). -/
def pingStage : List Char :=
  "        \n        stage('Ping Artifactory') \x7b\n            steps \x7b\n                script \x7b\n                    echo '=== Testing Artifactory Connection ==='\n                    jf 'rt ping'\n                    echo '✅ Successfully connected to Artifactory!'\n                \x7d\n            \x7d\n        \x7d".toList

/-- Lines 96–112: the upload block, parameterized by pattern and target. -/
def uploadStage (upload_pattern upload_target : List Char) : List Char :=
  "        \n        stage('Upload Artifact') \x7b\n            steps \x7b\n                script \x7b\n                    echo '=== Creating and Uploading Artifact ==='\n                    \n                    // Create test file\n                    sh 'echo \"Build $\x7bBUILD_NUMBER\x7d - $(date)\" > artifactory-test-$\x7bBUILD_NUMBER\x7d.txt'\n                    \n                    // Upload (converted from Artifactory plugin spec)\n                    jf 'rt u ".toList
    ++ upload_pattern
    ++ " ".toList ++ upload_target
    ++ "'\n                    \n                    echo '✅ Successfully uploaded artifact!'\n                    echo \"Uploaded to: ".toList
    ++ upload_target
    ++ "\"\n                \x7d\n            \x7d\n        \x7d".toList

/-- Lines 116–125: the publish block (fixed text). -/
def publishStage : List Char :=
  "        \n        stage('Publish Build Info') \x7b\n            steps \x7b\n                script \x7b\n                    echo '=== Publishing Build Info ==='\n                    jf 'rt bp'\n                    echo '✅ Build info published!'\n                \x7d\n            \x7d\n        \x7d".toList

/-- Lines 67–125: the emitted stage blocks in emission order, each tagged
with its name.  (The script keeps just the rendered text; the tags are
this file's bookkeeping for stating which stages appear and in what
order.) -/
def emittedStages (content : List Char) (server_url server_user : List Char) :
    List (StageName × List Char) :=
  let server_id := extract_server_id content
  let spec := extract_upload_spec content
  [(StageName.configure, configStage server_id server_url server_user)]
    ++ (if has_ping content then [(StageName.ping, pingStage)] else [])
    ++ (if has_upload content then [(StageName.upload, uploadStage spec.1 spec.2)] else [])
    ++ (if has_publish content then [(StageName.publish, publishStage)] else [])

/-- Python `'\n'.join`. -/
def joinNL : List (List Char) → List Char
  | [] => []
  | [b] => b
  | b :: bs => b ++ '\n' :: joinNL bs

/-- Lines 128–148: the fixed document text before the joined stages, with
`server_id` interpolated into the header comment. -/
def docPrefix (server_id : List Char) : List Char :=
  "// MIGRATED FROM ARTIFACTORY PLUGIN TO JFROG PLUGIN\n// Original server ID: ".toList
    ++ server_id
    ++ "\n// \n// Conversion applied:\n// - Removed stage: Setup Artifactory\n// - Artifactory.server() → jf 'config add' + 'c use'\n// - server.upload(spec) → jf 'rt u pattern target'\n// - server.publishBuildInfo() → jf 'rt bp'\n// - BuildInfo objects → Removed (auto-managed)\n//\n// TODO: Replace YOUR_PASSWORD on line 24 with actual password\n\npipeline \x7b\n    agent any\n    \n    tools \x7b\n        jfrog 'jfrog-cli'\n    \x7d\n    \n    stages \x7b\n".toList

/-- Lines 148–160: the fixed document text after the joined stages. -/
def docSuffix : List Char :=
  "\n    \x7d\n    \n    post \x7b\n        success \x7b\n            echo '🎉 Pipeline completed successfully!'\n        \x7d\n        failure \x7b\n            echo '❌ Pipeline failed'\n        \x7d\n    \x7d\n\x7d\n".toList

/-- Lines 47–162: `convert_pipeline`.  The `print` calls are I/O and
contribute nothing to the returned text; `has_setup` (line 59) is
computed only for that diagnostic, so it does not occur in the returned
text's construction. -/
def convert_pipeline (content : List Char)
    (server_url : List Char := "https://ecosysjfrog.jfrog.io".toList)
    (server_user : List Char := "agrasth".toList) : List Char :=
  let server_id := extract_server_id content
  let _diag_has_setup := has_setup content
  docPrefix server_id
    ++ joinNL ((emittedStages content server_url server_user).map Prod.snd)
    ++ docSuffix

/-! ## The recurrence satisfied by `replacePy` -/

theorem replacePyGo_fuel_irrel (p r : List Char) :
    ∀ fuel₁ fuel₂ s, s.length ≤ fuel₁ → s.length ≤ fuel₂ →
      replacePyGo p r fuel₁ s = replacePyGo p r fuel₂ s := by
  intro fuel₁
  induction fuel₁ with
  | zero =>
    intro fuel₂ s h1 _
    have : s = [] := List.length_eq_zero.mp (Nat.le_zero.mp h1)
    subst this
    cases fuel₂ <;> rfl
  | succ f₁ ih =>
    intro fuel₂ s h1 h2
    cases fuel₂ with
    | zero =>
      have : s = [] := List.length_eq_zero.mp (Nat.le_zero.mp h2)
      subst this
      rfl
    | succ f₂ =>
      cases s with
      | nil => rfl
      | cons c cs =>
        simp only [replacePyGo]
        by_cases hc : p ≠ [] ∧ p.isPrefixOf (c :: cs)
        · rw [if_pos hc, if_pos hc]
          have hp : 0 < p.length := List.length_pos.mpr hc.1
          have hlen : ((c :: cs).drop p.length).length ≤ f₁ := by
            simp only [List.length_drop, List.length_cons]
            simp only [List.length_cons] at h1
            omega
          have hlen2 : ((c :: cs).drop p.length).length ≤ f₂ := by
            simp only [List.length_drop, List.length_cons]
            simp only [List.length_cons] at h2
            omega
          rw [ih _ _ hlen hlen2]
        · rw [if_neg hc, if_neg hc]
          simp only [List.length_cons] at h1 h2
          rw [ih f₂ cs (by omega) (by omega)]

theorem replacePy_nil (p r : List Char) : replacePy p r [] = [] := rfl

theorem replacePy_cons (p r : List Char) (c : Char) (cs : List Char) :
    replacePy p r (c :: cs) =
      if p ≠ [] ∧ p.isPrefixOf (c :: cs) then
        r ++ replacePy p r ((c :: cs).drop p.length)
      else
        c :: replacePy p r cs := by
  show replacePyGo p r (c :: cs).length (c :: cs) = _
  simp only [List.length_cons, replacePyGo]
  by_cases hc : p ≠ [] ∧ p.isPrefixOf (c :: cs)
  · rw [if_pos hc, if_pos hc]
    have hp : 0 < p.length := List.length_pos.mpr hc.1
    rw [replacePyGo_fuel_irrel p r cs.length ((c :: cs).drop p.length).length _
      (by simp only [List.length_drop, List.length_cons]; omega) (Nat.le_refl _)]
    rfl
  · rw [if_neg hc, if_neg hc]
    rfl

/-! ## Substring containment -/

theorem pyContains_correct {p s : List Char} : pyContains p s = true ↔ p <:+: s := by
  induction s with
  | nil =>
    simp only [pyContains, List.isEmpty_iff, List.infix_nil]
  | cons c cs ih =>
    simp only [pyContains, Bool.or_eq_true, List.isPrefixOf_iff_prefix, ih,
      List.infix_cons_iff]

/-! ## Non-reappearance lemmas for `replacePy`

`replacePy p r` can only create a new occurrence of a word `q` across a
boundary of an inserted copy of `r`; when no character of `r` occurs in
`q`, every occurrence of `q` in the output already lay inside the scanned
input.  These lemmas make that precise for the entity passes of
`decode_html_entities` (where `r` is a single character that occurs in no
entity name). -/

theorem infix_append_right_of_disjoint {q r X : List Char} (hq : q ≠ [])
    (hdisj : ∀ c ∈ r, c ∉ q) (h : q <:+: r ++ X) : q <:+: X := by
  induction r with
  | nil => exact h
  | cons a rs ih =>
    rw [List.cons_append, List.infix_cons_iff] at h
    rcases h with h | h
    · rcases List.prefix_cons_iff.mp h with h | ⟨t, rfl, _⟩
      · exact absurd h hq
      · exact absurd (List.mem_cons_self a t) (hdisj a (List.mem_cons_self a rs))
    · exact ih (fun c hc => hdisj c (List.mem_cons_of_mem a hc)) h

theorem prefix_of_prefix_replacePy {p r q : List Char} (hr : r ≠ [])
    (hdisj : ∀ c ∈ r, c ∉ q) :
    ∀ cs, q ≠ [] → q <+: replacePy p r cs → q <+: cs := by
  intro cs
  induction cs generalizing q with
  | nil =>
    intro hq h
    rw [replacePy_nil] at h
    exact absurd (List.prefix_nil.mp h) hq
  | cons c cs ih =>
    intro hq h
    rw [replacePy_cons] at h
    by_cases hc : p ≠ [] ∧ p.isPrefixOf (c :: cs)
    · rw [if_pos hc] at h
      cases q with
      | nil => exact absurd rfl hq
      | cons b q' =>
        cases r with
        | nil => exact absurd rfl hr
        | cons a rs =>
          rw [List.cons_append, List.cons_prefix_cons] at h
          exact absurd (h.1 ▸ List.mem_cons_self b q')
            (hdisj a (List.mem_cons_self a rs))
    · rw [if_neg hc] at h
      cases q with
      | nil => exact absurd rfl hq
      | cons b q' =>
        rw [List.cons_prefix_cons] at h
        obtain ⟨rfl, h'⟩ := h
        cases hq' : q' with
        | nil => simp
        | cons b2 q2 =>
          subst hq'
          have hdisj' : ∀ x ∈ r, x ∉ b2 :: q2 := fun x hx hmem =>
            hdisj x hx (List.mem_cons_of_mem _ hmem)
          exact List.cons_prefix_cons.mpr
            ⟨rfl, ih hdisj' (List.cons_ne_nil b2 q2) h'⟩

theorem not_infix_self_replacePy {p r : List Char} (hp : p ≠ []) (hr : r ≠ [])
    (hdisj : ∀ c ∈ r, c ∉ p) :
    ∀ n s, s.length ≤ n → ¬ p <:+: replacePy p r s := by
  intro n
  induction n with
  | zero =>
    intro s hs
    have : s = [] := List.length_eq_zero.mp (Nat.le_zero.mp hs)
    subst this
    rw [replacePy_nil, List.infix_nil]
    exact hp
  | succ n ih =>
    intro s hs
    cases s with
    | nil =>
      rw [replacePy_nil, List.infix_nil]
      exact hp
    | cons c cs =>
      rw [replacePy_cons]
      by_cases hc : p ≠ [] ∧ p.isPrefixOf (c :: cs)
      · rw [if_pos hc]
        intro h
        have hlen : ((c :: cs).drop p.length).length ≤ n := by
          have : 0 < p.length := List.length_pos.mpr hp
          simp only [List.length_drop, List.length_cons]
          simp only [List.length_cons] at hs
          omega
        exact ih _ hlen (infix_append_right_of_disjoint hp hdisj h)
      · rw [if_neg hc]
        intro h
        rcases List.infix_cons_iff.mp h with h | h
        · cases p with
          | nil => exact hp rfl
          | cons b p' =>
            rw [List.cons_prefix_cons] at h
            obtain ⟨rfl, h'⟩ := h
            have hpre : b :: p' <+: b :: cs := by
              cases hp' : p' with
              | nil => simp
              | cons b2 q2 =>
                subst hp'
                have hdisj' : ∀ x ∈ r, x ∉ b2 :: q2 := fun x hx hmem =>
                  hdisj x hx (List.mem_cons_of_mem _ hmem)
                exact List.cons_prefix_cons.mpr
                  ⟨rfl, prefix_of_prefix_replacePy hr hdisj' cs
                    (List.cons_ne_nil b2 q2) h'⟩
            exact hc ⟨hp, List.isPrefixOf_iff_prefix.mpr hpre⟩
        · have hlen : cs.length ≤ n := by
            simp only [List.length_cons] at hs
            omega
          exact ih cs hlen h

theorem not_infix_replacePy {p r q : List Char} (hq : q ≠ []) (hr : r ≠ [])
    (hdisj : ∀ c ∈ r, c ∉ q) :
    ∀ n s, s.length ≤ n → ¬ q <:+: s → ¬ q <:+: replacePy p r s := by
  intro n
  induction n with
  | zero =>
    intro s hs hqs
    have : s = [] := List.length_eq_zero.mp (Nat.le_zero.mp hs)
    subst this
    rw [replacePy_nil]
    exact hqs
  | succ n ih =>
    intro s hs hqs
    cases s with
    | nil =>
      rw [replacePy_nil]
      exact hqs
    | cons c cs =>
      rw [replacePy_cons]
      by_cases hc : p ≠ [] ∧ p.isPrefixOf (c :: cs)
      · rw [if_pos hc]
        intro h
        have hp : 0 < p.length := List.length_pos.mpr hc.1
        have hlen : ((c :: cs).drop p.length).length ≤ n := by
          simp only [List.length_drop, List.length_cons]
          simp only [List.length_cons] at hs
          omega
        have hnd : ¬ q <:+: (c :: cs).drop p.length := fun hin =>
          hqs (hin.trans (List.drop_suffix p.length (c :: cs)).isInfix)
        exact ih _ hlen hnd (infix_append_right_of_disjoint hq hdisj h)
      · rw [if_neg hc]
        intro h
        rcases List.infix_cons_iff.mp h with h | h
        · cases q with
          | nil => exact hq rfl
          | cons b q' =>
            rw [List.cons_prefix_cons] at h
            obtain ⟨rfl, h'⟩ := h
            have hpre : b :: q' <+: b :: cs := by
              cases hq' : q' with
              | nil => simp
              | cons b2 q2 =>
                subst hq'
                have hdisj' : ∀ x ∈ r, x ∉ b2 :: q2 := fun x hx hmem =>
                  hdisj x hx (List.mem_cons_of_mem _ hmem)
                exact List.cons_prefix_cons.mpr
                  ⟨rfl, prefix_of_prefix_replacePy hr hdisj' cs
                    (List.cons_ne_nil b2 q2) h'⟩
            exact hqs hpre.isInfix
        · have hlen : cs.length ≤ n := by
            simp only [List.length_cons] at hs
            omega
          have hncs : ¬ q <:+: cs := fun hin => hqs (List.infix_cons hin)
          exact ih cs hlen hncs h

theorem replacePy_eq_self_of_no_occ {p : List Char} (r : List Char) :
    ∀ s, ¬ p <:+: s → replacePy p r s = s := by
  intro s
  induction s with
  | nil => intro _; rfl
  | cons c cs ih =>
    intro h
    rw [replacePy_cons]
    have hc : ¬ (p ≠ [] ∧ p.isPrefixOf (c :: cs)) := fun hc =>
      h (List.isPrefixOf_iff_prefix.mp hc.2).isInfix
    rw [if_neg hc, ih (fun hin => h (List.infix_cons hin))]

/-! ## Helper lemmas about the synthesizer -/

theorem infix_append_left {l X : List Char} (Y : List Char) (h : l <:+: X) :
    l <:+: X ++ Y :=
  h.trans (List.prefix_append X Y).isInfix

theorem infix_append_right {l : List Char} (X : List Char) {Y : List Char}
    (h : l <:+: Y) : l <:+: X ++ Y :=
  h.trans (List.suffix_append X Y).isInfix

theorem mem_infix_joinNL {b : List Char} :
    ∀ {blocks : List (List Char)}, b ∈ blocks → b <:+: joinNL blocks := by
  intro blocks
  induction blocks with
  | nil => intro h; cases h
  | cons x xs ih =>
    intro h
    rcases List.mem_cons.mp h with rfl | h
    · cases xs with
      | nil => exact List.infix_rfl
      | cons y ys => exact infix_append_left _ List.infix_rfl
    · cases xs with
      | nil => cases h
      | cons y ys =>
        exact (ih h).trans (infix_append_right x (List.infix_cons List.infix_rfl))

/-- Every emitted stage block is a contiguous piece of the output text. -/
theorem block_infix_convert {t url user b : List Char}
    (hb : b ∈ (emittedStages t url user).map Prod.snd) :
    b <:+: convert_pipeline t url user := by
  unfold convert_pipeline
  exact infix_append_left _ (infix_append_right _ (mem_infix_joinNL hb))

/-! ## Helper lemmas about the extractor -/

/-- The server-id capture group `([^'\"]+)` never matches the empty string. -/
theorem matchServerAt_ne_nil {s cap : List Char} (h : matchServerAt s = some cap) :
    cap ≠ [] := by
  unfold matchServerAt at h
  repeat' split at h
  all_goals try simp_all
  exact fun hc => List.cons_ne_nil _ _ (h.trans hc)

/-- The upload-spec capture group `([^"]+)` never matches the empty string. -/
theorem matchKeyAt_ne_nil {key s cap : List Char} (h : matchKeyAt key s = some cap) :
    cap ≠ [] := by
  unfold matchKeyAt at h
  repeat' split at h
  all_goals try simp_all
  exact fun hc => List.cons_ne_nil _ _ (h.trans hc)

theorem reSearch_ne_nil {f : List Char → Option (List Char)}
    (hf : ∀ s cap, f s = some cap → cap ≠ []) :
    ∀ s cap, reSearch f s = some cap → cap ≠ [] := by
  intro s
  induction s with
  | nil => exact fun cap h => hf [] cap h
  | cons c cs ih =>
    intro cap h
    unfold reSearch at h
    split at h
    · cases h; exact hf (c :: cs) _ (by assumption)
    · exact ih cap h

/-- If the position matcher fails at every position inside a prefix `a`,
the search over `a ++ rest` is the search over `rest`. -/
theorem reSearch_append_none {f : List Char → Option (List Char)} {rest : List Char} :
    ∀ (a : List Char), (∀ i, i < a.length → f (a.drop i ++ rest) = none) →
      reSearch f (a ++ rest) = reSearch f rest := by
  intro a
  induction a with
  | nil => intro _; rfl
  | cons c cs ih =>
    intro h
    have h0 := h 0 (Nat.succ_pos _)
    simp only [List.drop_zero, List.cons_append] at h0
    rw [List.cons_append, reSearch, h0]
    exact ih (fun i hi => by
      have := h (i + 1) (by simpa using Nat.succ_lt_succ hi)
      simpa using this)

/-- Text free of all five entity sequences is a fixed point of the
decoder. -/
theorem decode_eq_self_of_no_entities {s : List Char}
    (h1 : ¬ "&apos;".toList <:+: s) (h2 : ¬ "&quot;".toList <:+: s)
    (h3 : ¬ "&gt;".toList <:+: s) (h4 : ¬ "&lt;".toList <:+: s)
    (h5 : ¬ "&amp;".toList <:+: s) :
    decode_html_entities s = s := by
  simp only [decode_html_entities]
  rw [replacePy_eq_self_of_no_occ _ s h1, replacePy_eq_self_of_no_occ _ s h2,
    replacePy_eq_self_of_no_occ _ s h3, replacePy_eq_self_of_no_occ _ s h4,
    replacePy_eq_self_of_no_occ _ s h5]

/-! ## The claims -/

/-- C1 (counterexample).  The claim "decode_html_entities is idempotent
for every input text" is false on the code: on `&amp;amp;` the `&amp;`
pass rewrites the first entity and leaves behind a fresh `&amp;`, so a
second run decodes further: the first run gives `&amp;`, the second
gives `&`. -/
theorem c1_decode_not_idempotent_counterexample :
    decode_html_entities "&amp;amp;".toList = "&amp;".toList ∧
    decode_html_entities "&amp;".toList = "&".toList ∧
    decode_html_entities (decode_html_entities "&amp;amp;".toList)
      ≠ decode_html_entities "&amp;amp;".toList := by
  refine ⟨by decide, by decide, by decide⟩

/-- C1 (amended).  For every input text with no occurrence of `&amp;`,
`decode_html_entities` is idempotent: the four replacement characters
`'`, `"`, `>`, `<` occur in no entity name, so the first four passes can
never create a new entity occurrence, and without `&amp;` in the input
the fifth pass (the only one whose single-pass scan can leave a fresh
`&amp;` behind) is a no-op, leaving the output free of all five entities. -/
theorem c1_decode_idempotent_of_no_amp (t : List Char)
    (h : pyContains "&amp;".toList t = false) :
    decode_html_entities (decode_html_entities t) = decode_html_entities t := by
  have hamp : ¬ "&amp;".toList <:+: t := fun hin => by
    rw [pyContains_correct.mpr hin] at h
    exact Bool.noConfusion h
  set t1 := replacePy "&apos;".toList "'".toList t with ht1
  set t2 := replacePy "&quot;".toList "\"".toList t1 with ht2
  set t3 := replacePy "&gt;".toList ">".toList t2 with ht3
  set t4 := replacePy "&lt;".toList "<".toList t3 with ht4
  have hA1 : ¬ "&apos;".toList <:+: t1 :=
    not_infix_self_replacePy (by decide) (by decide) (by decide) t.length t (Nat.le_refl _)
  have hM1 : ¬ "&amp;".toList <:+: t1 :=
    not_infix_replacePy (by decide) (by decide) (by decide) t.length t (Nat.le_refl _) hamp
  have hQ2 : ¬ "&quot;".toList <:+: t2 :=
    not_infix_self_replacePy (by decide) (by decide) (by decide) t1.length t1 (Nat.le_refl _)
  have hA2 : ¬ "&apos;".toList <:+: t2 :=
    not_infix_replacePy (by decide) (by decide) (by decide) t1.length t1 (Nat.le_refl _) hA1
  have hM2 : ¬ "&amp;".toList <:+: t2 :=
    not_infix_replacePy (by decide) (by decide) (by decide) t1.length t1 (Nat.le_refl _) hM1
  have hG3 : ¬ "&gt;".toList <:+: t3 :=
    not_infix_self_replacePy (by decide) (by decide) (by decide) t2.length t2 (Nat.le_refl _)
  have hQ3 : ¬ "&quot;".toList <:+: t3 :=
    not_infix_replacePy (by decide) (by decide) (by decide) t2.length t2 (Nat.le_refl _) hQ2
  have hA3 : ¬ "&apos;".toList <:+: t3 :=
    not_infix_replacePy (by decide) (by decide) (by decide) t2.length t2 (Nat.le_refl _) hA2
  have hM3 : ¬ "&amp;".toList <:+: t3 :=
    not_infix_replacePy (by decide) (by decide) (by decide) t2.length t2 (Nat.le_refl _) hM2
  have hL4 : ¬ "&lt;".toList <:+: t4 :=
    not_infix_self_replacePy (by decide) (by decide) (by decide) t3.length t3 (Nat.le_refl _)
  have hG4 : ¬ "&gt;".toList <:+: t4 :=
    not_infix_replacePy (by decide) (by decide) (by decide) t3.length t3 (Nat.le_refl _) hG3
  have hQ4 : ¬ "&quot;".toList <:+: t4 :=
    not_infix_replacePy (by decide) (by decide) (by decide) t3.length t3 (Nat.le_refl _) hQ3
  have hA4 : ¬ "&apos;".toList <:+: t4 :=
    not_infix_replacePy (by decide) (by decide) (by decide) t3.length t3 (Nat.le_refl _) hA3
  have hM4 : ¬ "&amp;".toList <:+: t4 :=
    not_infix_replacePy (by decide) (by decide) (by decide) t3.length t3 (Nat.le_refl _) hM3
  have hdec : decode_html_entities t = t4 := by
    simp only [decode_html_entities]
    exact replacePy_eq_self_of_no_occ _ t4 hM4
  rw [hdec]
  exact decode_eq_self_of_no_entities hA4 hQ4 hG4 hL4 hM4

/-- C1 (witness).  The amended idempotence applied at the concrete input
`&apos;x&lt;`, which contains entities but no `&amp;`. -/
theorem c1_decode_idempotent_of_no_amp_witness :
    pyContains "&amp;".toList "&apos;x&lt;".toList = false ∧
    decode_html_entities (decode_html_entities "&apos;x&lt;".toList)
      = decode_html_entities "&apos;x&lt;".toList :=
  ⟨by decide, c1_decode_idempotent_of_no_amp "&apos;x&lt;".toList (by decide)⟩

set_option maxRecDepth 100000 in
/-- C2 (counterexample).  The claim quantifies over every input
containing the listed fragments, but the script uses only the first
regex match: an input that also contains an earlier
`Artifactory.server('other')` satisfies every hypothesis of the claim
(all listed fragments present, no Setup or Ping marker), yet the output
interpolates `other` and mentions `myserver` nowhere, so it contains no
Configure stage parameterized with `myserver`. -/
theorem c2_concrete_scenario_counterexample :
    pyContains "Artifactory.server('myserver')".toList "Artifactory.server('other') Artifactory.server('myserver') \"pattern\": \"*.zip\", \"target\": \"libs-release/\" server.upload publishBuildInfo".toList = true ∧
    pyContains "\"pattern\": \"*.zip\"".toList "Artifactory.server('other') Artifactory.server('myserver') \"pattern\": \"*.zip\", \"target\": \"libs-release/\" server.upload publishBuildInfo".toList = true ∧
    pyContains "\"target\": \"libs-release/\"".toList "Artifactory.server('other') Artifactory.server('myserver') \"pattern\": \"*.zip\", \"target\": \"libs-release/\" server.upload publishBuildInfo".toList = true ∧
    has_upload "Artifactory.server('other') Artifactory.server('myserver') \"pattern\": \"*.zip\", \"target\": \"libs-release/\" server.upload publishBuildInfo".toList = true ∧
    has_publish "Artifactory.server('other') Artifactory.server('myserver') \"pattern\": \"*.zip\", \"target\": \"libs-release/\" server.upload publishBuildInfo".toList = true ∧
    has_setup "Artifactory.server('other') Artifactory.server('myserver') \"pattern\": \"*.zip\", \"target\": \"libs-release/\" server.upload publishBuildInfo".toList = false ∧
    has_ping "Artifactory.server('other') Artifactory.server('myserver') \"pattern\": \"*.zip\", \"target\": \"libs-release/\" server.upload publishBuildInfo".toList = false ∧
    pyContains "myserver".toList (convert_pipeline "Artifactory.server('other') Artifactory.server('myserver') \"pattern\": \"*.zip\", \"target\": \"libs-release/\" server.upload publishBuildInfo".toList) = false := by
  refine ⟨by decide, by decide, by decide, by decide, by decide, by decide, by decide,
    by decide⟩

/-- C2 (amended).  The scenario holds for every input whose first
matches are the listed fragments: if extraction yields server id
`myserver`, pattern `*.zip` and target `libs-release/` and the upload
and publish markers are present while the Ping marker is absent, the
output contains the Configure block parameterized with `myserver`, the
Upload block referencing `*.zip` and `libs-release/`, the Publish block,
and its stage list is exactly Configure, Upload, Publish — no Ping and
no Setup stage. -/
theorem c2_concrete_scenario_first_match (t : List Char)
    (hsid : extract_server_id t = "myserver".toList)
    (hspec : extract_upload_spec t = ("*.zip".toList, "libs-release/".toList))
    (hu : has_upload t = true) (hb : has_publish t = true) (hp : has_ping t = false) :
    configStage "myserver".toList "https://ecosysjfrog.jfrog.io".toList "agrasth".toList
        <:+: convert_pipeline t ∧
    uploadStage "*.zip".toList "libs-release/".toList <:+: convert_pipeline t ∧
    publishStage <:+: convert_pipeline t ∧
    (emittedStages t "https://ecosysjfrog.jfrog.io".toList "agrasth".toList).map Prod.fst
      = [StageName.configure, StageName.upload, StageName.publish] := by
  refine ⟨?_, ?_, ?_, ?_⟩
  · exact block_infix_convert (by simp [emittedStages, hsid, hspec, hp, hu, hb])
  · exact block_infix_convert (by simp [emittedStages, hsid, hspec, hp, hu, hb])
  · exact block_infix_convert (by simp [emittedStages, hsid, hspec, hp, hu, hb])
  · simp [emittedStages, hsid, hspec, hp, hu, hb]

set_option maxRecDepth 100000 in
/-- C2 (witness).  The amended scenario applied at the concrete input of
the spec's own example, whose first matches are exactly the listed
fragments. -/
theorem c2_concrete_scenario_first_match_witness :
    extract_server_id "Artifactory.server('myserver') \"pattern\": \"*.zip\", \"target\": \"libs-release/\" server.upload publishBuildInfo".toList = "myserver".toList ∧
    extract_upload_spec "Artifactory.server('myserver') \"pattern\": \"*.zip\", \"target\": \"libs-release/\" server.upload publishBuildInfo".toList = ("*.zip".toList, "libs-release/".toList) ∧
    has_upload "Artifactory.server('myserver') \"pattern\": \"*.zip\", \"target\": \"libs-release/\" server.upload publishBuildInfo".toList = true ∧
    has_publish "Artifactory.server('myserver') \"pattern\": \"*.zip\", \"target\": \"libs-release/\" server.upload publishBuildInfo".toList = true ∧
    has_ping "Artifactory.server('myserver') \"pattern\": \"*.zip\", \"target\": \"libs-release/\" server.upload publishBuildInfo".toList = false ∧
    (configStage "myserver".toList "https://ecosysjfrog.jfrog.io".toList "agrasth".toList
        <:+: convert_pipeline "Artifactory.server('myserver') \"pattern\": \"*.zip\", \"target\": \"libs-release/\" server.upload publishBuildInfo".toList ∧
      uploadStage "*.zip".toList "libs-release/".toList <:+: convert_pipeline "Artifactory.server('myserver') \"pattern\": \"*.zip\", \"target\": \"libs-release/\" server.upload publishBuildInfo".toList ∧
      publishStage <:+: convert_pipeline "Artifactory.server('myserver') \"pattern\": \"*.zip\", \"target\": \"libs-release/\" server.upload publishBuildInfo".toList ∧
      (emittedStages "Artifactory.server('myserver') \"pattern\": \"*.zip\", \"target\": \"libs-release/\" server.upload publishBuildInfo".toList "https://ecosysjfrog.jfrog.io".toList "agrasth".toList).map Prod.fst
        = [StageName.configure, StageName.upload, StageName.publish]) :=
  ⟨by decide, by decide, by decide, by decide, by decide,
    c2_concrete_scenario_first_match _ (by decide) (by decide) (by decide) (by decide)
      (by decide)⟩

/-- C3 (confirmed).  Order invariance: for every input text (and any
server url and user), the output document is the fixed wrapper around the
emitted stage blocks, the emitted stage list always starts with the
Configure stage, and the sequence of emitted stage names is a
subsequence of Configure, Ping, Upload, Publish — so the relative order
of the emitted stages never depends on where the markers occur in the
input. -/
theorem c3_stage_order_invariant (t url user : List Char) :
    convert_pipeline t url user
      = docPrefix (extract_server_id t)
        ++ joinNL ((emittedStages t url user).map Prod.snd) ++ docSuffix ∧
    ((emittedStages t url user).map Prod.fst).head? = some StageName.configure ∧
    List.Sublist ((emittedStages t url user).map Prod.fst)
      [StageName.configure, StageName.ping, StageName.upload, StageName.publish] := by
  refine ⟨rfl, ?_⟩
  cases hp : has_ping t <;> cases hu : has_upload t <;> cases hb : has_publish t <;>
    simp [emittedStages, hp, hu, hb]

/-- C4 (confirmed).  Flag-gated emission: when the Ping marker and the
publish-call marker are present but the upload-call marker is absent,
the emitted stages are exactly Configure, Ping, Publish in that order
(so a Ping stage and a Publish stage with Ping before Publish, and no
Upload stage), the Ping and Publish blocks are contiguous pieces of the
output text, and no input whatsoever makes the script emit a Setup
stage. -/
theorem c4_flag_gated_stages (t url user : List Char)
    (hp : has_ping t = true) (hb : has_publish t = true) (hu : has_upload t = false) :
    (emittedStages t url user).map Prod.fst
      = [StageName.configure, StageName.ping, StageName.publish] ∧
    pingStage <:+: convert_pipeline t url user ∧
    publishStage <:+: convert_pipeline t url user ∧
    (∀ u : List Char, StageName.setup ∉ (emittedStages u url user).map Prod.fst) := by
  refine ⟨?_, ?_, ?_, ?_⟩
  · simp [emittedStages, hp, hu, hb]
  · exact block_infix_convert (by simp [emittedStages, hp, hu, hb])
  · exact block_infix_convert (by simp [emittedStages, hp, hu, hb])
  · intro u
    cases hp' : has_ping u <;> cases hu' : has_upload u <;> cases hb' : has_publish u <;>
      simp [emittedStages, hp', hu', hb']

/-- C4 (witness).  The flag-gating applied at the concrete input
containing exactly the Ping marker and the publish-call marker, with the
script's default url and user. -/
theorem c4_flag_gated_stages_witness :
    has_ping "stage('Ping Artifactory') publishBuildInfo".toList = true ∧
    has_publish "stage('Ping Artifactory') publishBuildInfo".toList = true ∧
    has_upload "stage('Ping Artifactory') publishBuildInfo".toList = false ∧
    ((emittedStages "stage('Ping Artifactory') publishBuildInfo".toList
        "https://ecosysjfrog.jfrog.io".toList "agrasth".toList).map Prod.fst
      = [StageName.configure, StageName.ping, StageName.publish] ∧
      pingStage <:+: convert_pipeline "stage('Ping Artifactory') publishBuildInfo".toList
        "https://ecosysjfrog.jfrog.io".toList "agrasth".toList ∧
      publishStage <:+: convert_pipeline "stage('Ping Artifactory') publishBuildInfo".toList
        "https://ecosysjfrog.jfrog.io".toList "agrasth".toList ∧
      (∀ u : List Char, StageName.setup ∉ (emittedStages u
        "https://ecosysjfrog.jfrog.io".toList "agrasth".toList).map Prod.fst)) :=
  ⟨by decide, by decide, by decide,
    c4_flag_gated_stages _ _ _ (by decide) (by decide) (by decide)⟩

/-- C5 (confirmed).  Total extraction: both extractors are total Lean
functions, and on every input (including the empty string) the extracted
server id, upload pattern and upload target are non-empty — a successful
capture is non-empty because each capture group is one-or-more, and each
fallback literal is non-empty. -/
theorem c5_total_extraction (t : List Char) :
    extract_server_id t ≠ [] ∧
    (extract_upload_spec t).1 ≠ [] ∧ (extract_upload_spec t).2 ≠ [] := by
  refine ⟨?_, ?_, ?_⟩
  · unfold extract_server_id
    split
    · exact reSearch_ne_nil (fun _ _ h => matchServerAt_ne_nil h) t _ (by assumption)
    · decide
  · unfold extract_upload_spec
    simp only []
    split
    · exact reSearch_ne_nil (fun _ _ h => matchKeyAt_ne_nil h) t _ (by assumption)
    · decide
  · unfold extract_upload_spec
    simp only []
    split
    · exact reSearch_ne_nil (fun _ _ h => matchKeyAt_ne_nil h) t _ (by assumption)
    · decide

/-- C6 (confirmed).  Default fallbacks, each applying independently: when
the server-id regex has no match the server id is exactly `ecosysjfrog`;
when the pattern regex has no match the pattern is exactly `*.txt`; when
the target regex has no match the target is exactly `repo/`. -/
theorem c6_default_fallbacks (t : List Char) :
    (reSearch matchServerAt t = none → extract_server_id t = "ecosysjfrog".toList) ∧
    (reSearch (matchKeyAt "pattern".toList) t = none →
      (extract_upload_spec t).1 = "*.txt".toList) ∧
    (reSearch (matchKeyAt "target".toList) t = none →
      (extract_upload_spec t).2 = "repo/".toList) := by
  refine ⟨fun h => ?_, fun h => ?_, fun h => ?_⟩
  · unfold extract_server_id
    rw [h]
  · unfold extract_upload_spec
    rw [h]
  · unfold extract_upload_spec
    rw [h]

/-- C6 (witness).  The three fallbacks applied at a concrete input with
no server, pattern or target fragment. -/
theorem c6_default_fallbacks_witness :
    reSearch matchServerAt "no fragments here".toList = none ∧
    reSearch (matchKeyAt "pattern".toList) "no fragments here".toList = none ∧
    reSearch (matchKeyAt "target".toList) "no fragments here".toList = none ∧
    (extract_server_id "no fragments here".toList = "ecosysjfrog".toList ∧
      (extract_upload_spec "no fragments here".toList).1 = "*.txt".toList ∧
      (extract_upload_spec "no fragments here".toList).2 = "repo/".toList) :=
  ⟨by decide, by decide, by decide,
    (c6_default_fallbacks _).1 (by decide),
    (c6_default_fallbacks _).2.1 (by decide),
    (c6_default_fallbacks _).2.2 (by decide)⟩

/-- C7 (confirmed).  Entity-decoding scenario: decoding
`Artifactory.server(&apos;srv1&apos;)` and then extracting the server id
yields `srv1`. -/
theorem c7_entity_decoding_scenario :
    extract_server_id
        (decode_html_entities "Artifactory.server(&apos;srv1&apos;)".toList)
      = "srv1".toList := by
  decide

/-- C8 (confirmed).  Credential placeholder: for every input (and any
url and user), the literal `YOUR_PASSWORD` is a contiguous piece of the
Configure block built for the extracted server id, and that Configure
block is itself a contiguous piece of the output — the placeholder is
never omitted. -/
theorem c8_password_placeholder (t url user : List Char) :
    "YOUR_PASSWORD".toList <:+: configStage (extract_server_id t) url user ∧
    configStage (extract_server_id t) url user <:+: convert_pipeline t url user := by
  constructor
  · unfold configStage
    exact infix_append_left _ (infix_append_left _ (infix_append_right _ (by decide)))
  · exact block_infix_convert (by simp [emittedStages])

/-- C9 (confirmed).  Setup-flag noninterference: two inputs with the same
extracted server id, upload spec, and Ping/Upload/Publish flags produce
identical output text, whether or not either contains the Setup marker —
the Setup detection feeds only the script's diagnostic `print`. -/
theorem c9_setup_noninterference (t1 t2 url user : List Char)
    (h1 : extract_server_id t1 = extract_server_id t2)
    (h2 : extract_upload_spec t1 = extract_upload_spec t2)
    (h3 : has_ping t1 = has_ping t2)
    (h4 : has_upload t1 = has_upload t2)
    (h5 : has_publish t1 = has_publish t2) :
    convert_pipeline t1 url user = convert_pipeline t2 url user := by
  simp only [convert_pipeline, emittedStages, h1, h2, h3, h4, h5]

/-- C9 (witness).  Noninterference applied to the empty input and an
input consisting of the Setup marker: the Setup flags differ, every
other extracted value agrees, and the outputs coincide. -/
theorem c9_setup_noninterference_witness :
    has_setup "".toList = false ∧
    has_setup "stage('Setup Artifactory')".toList = true ∧
    extract_server_id "".toList = extract_server_id "stage('Setup Artifactory')".toList ∧
    extract_upload_spec "".toList
      = extract_upload_spec "stage('Setup Artifactory')".toList ∧
    has_ping "".toList = has_ping "stage('Setup Artifactory')".toList ∧
    has_upload "".toList = has_upload "stage('Setup Artifactory')".toList ∧
    has_publish "".toList = has_publish "stage('Setup Artifactory')".toList ∧
    convert_pipeline "".toList "https://ecosysjfrog.jfrog.io".toList "agrasth".toList
      = convert_pipeline "stage('Setup Artifactory')".toList
          "https://ecosysjfrog.jfrog.io".toList "agrasth".toList :=
  ⟨by decide, by decide, by decide, by decide, by decide, by decide, by decide,
    c9_setup_noninterference _ _ _ _ (by decide) (by decide) (by decide) (by decide)
      (by decide)⟩

/-- C10 (confirmed).  An input that opens with `Artifactory.server('')`
(an empty quoted argument) and continues with text in which the
server-id regex has no match extracts the fallback `ecosysjfrog`: the
capture group `([^'\"]+)` needs at least one character, so the
empty-argument call itself can never match, whatever follows it. -/
theorem c10_empty_server_id_falls_back (rest : List Char)
    (h : reSearch matchServerAt rest = none) :
    extract_server_id ("Artifactory.server('')".toList ++ rest)
      = "ecosysjfrog".toList := by
  have hs : reSearch matchServerAt ("Artifactory.server('')".toList ++ rest)
      = reSearch matchServerAt rest := by
    apply reSearch_append_none
    intro i hi
    have hlen : ("Artifactory.server('')".toList).length = 22 := rfl
    rw [hlen] at hi
    interval_cases i <;> rfl
  unfold extract_server_id
  rw [hs, h]

/-- C10 (witness).  The fallback applied to the input that is exactly
the empty-argument call. -/
theorem c10_empty_server_id_falls_back_witness :
    reSearch matchServerAt ([] : List Char) = none ∧
    extract_server_id ("Artifactory.server('')".toList ++ [])
      = "ecosysjfrog".toList :=
  ⟨by decide, c10_empty_server_id_falls_back [] (by decide)⟩

end Migrate
